import Mathlib

/-!
Verification of the Folunar control-plane repository against its
natural-language specification.

The Python sources are shallowly embedded: strings are `List Char` /
`String`, dictionaries are function maps or association data, time is an
explicit `Int` parameter (a Unix timestamp in seconds), and external
collaborators (the container engine, the Redis tier, the JWT library, the
remote LLM client) are parameters of the embedded functions so that their
success and failure modes can be instantiated per theorem.
-/

namespace Folunar

/-! ## Python string primitives -/

/-- ASCII whitespace, as recognised both by Python's default `str.strip`
and by the regular-expression class `\s`. -/
def isWsChar (c : Char) : Bool :=
  c = ' ' || c = '\t' || c = '\n' || c = '\r' || c = '\x0b' || c = '\x0c'

/-- Model of Python `str.strip()` (no argument): remove whitespace from
both ends, here on character lists. -/
def pyStrip (l : List Char) : List Char :=
  ((l.dropWhile isWsChar).reverse.dropWhile isWsChar).reverse

/-- Model of Python `str.strip(chars)`: remove any of the given characters
from both ends. -/
def pyStripOn (bad : List Char) (l : List Char) : List Char :=
  ((l.dropWhile (bad.contains ·)).reverse.dropWhile (bad.contains ·)).reverse

/-- Worker for `pySplitWsL`; the second argument accumulates the current
word in reverse. -/
def pySplitWsGo : List Char → List Char → List (List Char)
  | [], acc => if acc.isEmpty then [] else [acc.reverse]
  | c :: cs, acc =>
    if isWsChar c then
      if acc.isEmpty then pySplitWsGo cs [] else acc.reverse :: pySplitWsGo cs []
    else
      pySplitWsGo cs (c :: acc)

/-- Model of Python `str.split()` (no argument): split on runs of
whitespace and discard empty fields. -/
def pySplitWsL (l : List Char) : List (List Char) :=
  pySplitWsGo l []

/-- String-level wrapper of `pySplitWsL`. -/
def pySplitWs (s : String) : List String :=
  (pySplitWsL s.data).map String.mk

/-- Model of Python `str.splitlines()` restricted to the newline
character, which is the only line break the embedded sources produce. -/
def pySplitLines : List Char → List (List Char)
  | [] => []
  | c :: cs =>
    if c = '\n' then [] :: pySplitLines cs
    else
      match pySplitLines cs with
      | [] => [[c]]
      | l :: ls => (c :: l) :: ls

/-! ## A small regular-expression engine

The Decision Engine's `_validate_command` matches commands against
Python regular expressions built only from literal characters, the
class `\s`, the wildcard `.`, the quantifiers `+ * ?` on a single atom,
and an optional end anchor `$`.  The engine below covers exactly that
fragment, with `re.IGNORECASE` matching built into literal atoms. -/

/-- One regular-expression atom. -/
inductive RAtom : Type
  | lit (c : Char)
  | wsClass
  | anyChar
deriving DecidableEq

/-- Whether an atom matches one character, case-insensitively for
literals (the source compiles every pattern with `re.IGNORECASE`);
`.` matches anything but a newline. -/
def ratomMatch : RAtom → Char → Bool
  | .lit a, c => a.toLower = c.toLower
  | .wsClass, c => isWsChar c
  | .anyChar, c => c ≠ '\n'

/-- Quantifier of an atom occurrence. -/
inductive RQuant : Type
  | one
  | opt
  | star
  | plus
deriving DecidableEq

/-- A token: an atom with its quantifier. -/
abbrev RTok := RAtom × RQuant

/-- Remainders of the input after `a*` consumes a prefix: zero
repetitions leave the input unchanged, and each further repetition
consumes one matching character. -/
def starRem (a : RAtom) : List Char → List (List Char)
  | [] => [[]]
  | c :: cs => (c :: cs) :: (if ratomMatch a c then starRem a cs else [])

/-- Remainders of the input after one token consumes a prefix. -/
def tokRem : RTok → List Char → List (List Char)
  | (_, .one), [] => []
  | (a, .one), c :: cs => if ratomMatch a c then [cs] else []
  | (_, .opt), [] => [[]]
  | (a, .opt), c :: cs => (c :: cs) :: (if ratomMatch a c then [cs] else [])
  | (a, .star), cs => starRem a cs
  | (_, .plus), [] => []
  | (a, .plus), c :: cs => if ratomMatch a c then starRem a cs else []

/-- Remainders of the input after a whole token list consumes a prefix. -/
def toksRem (ts : List RTok) (cs : List Char) : List (List Char) :=
  ts.foldl (fun rems t => rems.flatMap (tokRem t)) [cs]

/-- A compiled pattern: its Python source text (kept verbatim because the
validator's rejection reasons quote it), its tokens, and whether it ends
with the `$` anchor. -/
structure RePat : Type where
  src : String
  toks : List RTok
  endAnchor : Bool
deriving DecidableEq

/-- Model of `re.match`: does the pattern match at the very start of the
input (consuming the whole input when `$`-anchored)? -/
def reMatchAt (p : RePat) (cs : List Char) : Bool :=
  let rems := toksRem p.toks cs
  if p.endAnchor then rems.contains [] else !rems.isEmpty

/-- All suffixes of a character list, longest first. -/
def suffixesL : List Char → List (List Char)
  | [] => [[]]
  | c :: cs => (c :: cs) :: suffixesL cs

/-- Model of `re.search`: does the pattern match starting at some
position of the input? -/
def reSearch (p : RePat) (cs : List Char) : Bool :=
  (suffixesL cs).any (reMatchAt p)

/-! Pattern-building helpers used to transcribe the source's regular
expressions token by token. -/

/-- Literal characters, one `one`-quantified atom each. -/
def rlit (s : String) : List RTok :=
  s.data.map (fun c => (RAtom.lit c, RQuant.one))

/-- The fragment `\s+`. -/
def rws1 : List RTok := [(RAtom.wsClass, RQuant.plus)]

/-- The fragment `\s*`. -/
def rwsStar : List RTok := [(RAtom.wsClass, RQuant.star)]

/-- The fragment `.*`. -/
def rdotStar : List RTok := [(RAtom.anyChar, RQuant.star)]

/-- An optional literal character, the fragment `c?`. -/
def ropt (c : Char) : List RTok := [(RAtom.lit c, RQuant.opt)]

/-- An unanchored pattern (matched with `re.search`). -/
def mkPat (src : String) (toks : List RTok) : RePat :=
  ⟨src, toks, false⟩

/-- A pattern carrying the `$` end anchor. -/
def mkPatEnd (src : String) (toks : List RTok) : RePat :=
  ⟨src, toks, true⟩

/-! ## Decision Engine command validation (`decision_engine.py`)

`DecisionEngine.__init__` installs a default list of dangerous-command
patterns (checked with `re.search`) and of allowed-command patterns
(checked with `re.match`); `_validate_command` then runs the checks in
source order.  The pattern lists below are transcribed one for one. -/

/-- Default `dangerous_commands` list of `DecisionEngine.__init__`. -/
def dangerous_commands : List RePat :=
  [ mkPat "rm\\s+-rf\\s+/" (rlit "rm" ++ rws1 ++ rlit "-rf" ++ rws1 ++ rlit "/")
  , mkPat "rm\\s+-rf\\s+\\*" (rlit "rm" ++ rws1 ++ rlit "-rf" ++ rws1 ++ rlit "*")
  , mkPat "rm\\s+-rf\\s+\\.\\." (rlit "rm" ++ rws1 ++ rlit "-rf" ++ rws1 ++ rlit "..")
  , mkPat "format\\s+" (rlit "format" ++ rws1)
  , mkPat "mkfs\\." (rlit "mkfs.")
  , mkPat "dd\\s+if=" (rlit "dd" ++ rws1 ++ rlit "if=")
  , mkPat "fdisk" (rlit "fdisk")
  , mkPat "parted" (rlit "parted")
  , mkPat "shutdown" (rlit "shutdown")
  , mkPat "reboot" (rlit "reboot")
  , mkPat "halt" (rlit "halt")
  , mkPat "poweroff" (rlit "poweroff")
  , mkPat "systemctl\\s+disable" (rlit "systemctl" ++ rws1 ++ rlit "disable")
  , mkPat "systemctl\\s+stop" (rlit "systemctl" ++ rws1 ++ rlit "stop")
  , mkPat "killall" (rlit "killall")
  , mkPat "pkill\\s+-9" (rlit "pkill" ++ rws1 ++ rlit "-9")
  , mkPat "chmod\\s+777" (rlit "chmod" ++ rws1 ++ rlit "777")
  , mkPat "chown\\s+root" (rlit "chown" ++ rws1 ++ rlit "root")
  , mkPat "usermod" (rlit "usermod")
  , mkPat "userdel" (rlit "userdel")
  , mkPat "passwd" (rlit "passwd")
  , mkPat "su\\s+" (rlit "su" ++ rws1)
  , mkPat "sudo\\s+" (rlit "sudo" ++ rws1)
  , mkPat "mount" (rlit "mount")
  , mkPat "umount" (rlit "umount")
  , mkPat "apt\\s+remove" (rlit "apt" ++ rws1 ++ rlit "remove")
  , mkPat "apt\\s+purge" (rlit "apt" ++ rws1 ++ rlit "purge")
  , mkPat "pip\\s+uninstall" (rlit "pip" ++ rws1 ++ rlit "uninstall")
  , mkPat "npm\\s+uninstall" (rlit "npm" ++ rws1 ++ rlit "uninstall")
  , mkPat "yum\\s+remove" (rlit "yum" ++ rws1 ++ rlit "remove")
  , mkPat "wget\\s+.*\\|\\s*sh" (rlit "wget" ++ rws1 ++ rdotStar ++ rlit "|" ++ rwsStar ++ rlit "sh")
  , mkPat "curl\\s+.*\\|\\s*sh" (rlit "curl" ++ rws1 ++ rdotStar ++ rlit "|" ++ rwsStar ++ rlit "sh")
  , mkPat "eval\\s+" (rlit "eval" ++ rws1)
  , mkPat "exec\\s+" (rlit "exec" ++ rws1)
  , mkPat "bash\\s+-c" (rlit "bash" ++ rws1 ++ rlit "-c")
  , mkPat "sh\\s+-c" (rlit "sh" ++ rws1 ++ rlit "-c")
  ]

/-- Default `allowed_command_patterns` list of `DecisionEngine.__init__`.
The source anchors each with `^` and matches with `re.match`, so the `^`
is implicit in `reMatchAt`. -/
def allowed_command_patterns : List RePat :=
  [ mkPat "^ls\\s+" (rlit "ls" ++ rws1)
  , mkPatEnd "^pwd$" (rlit "pwd")
  , mkPat "^cd\\s+" (rlit "cd" ++ rws1)
  , mkPat "^cat\\s+" (rlit "cat" ++ rws1)
  , mkPat "^head\\s+" (rlit "head" ++ rws1)
  , mkPat "^tail\\s+" (rlit "tail" ++ rws1)
  , mkPat "^grep\\s+" (rlit "grep" ++ rws1)
  , mkPat "^find\\s+" (rlit "find" ++ rws1)
  , mkPat "^ps\\s+" (rlit "ps" ++ rws1)
  , mkPatEnd "^top$" (rlit "top")
  , mkPatEnd "^htop$" (rlit "htop")
  , mkPat "^df\\s+" (rlit "df" ++ rws1)
  , mkPat "^du\\s+" (rlit "du" ++ rws1)
  , mkPatEnd "^free$" (rlit "free")
  , mkPatEnd "^uptime$" (rlit "uptime")
  , mkPatEnd "^whoami$" (rlit "whoami")
  , mkPatEnd "^id$" (rlit "id")
  , mkPatEnd "^date$" (rlit "date")
  , mkPat "^echo\\s+" (rlit "echo" ++ rws1)
  , mkPat "^mkdir\\s+" (rlit "mkdir" ++ rws1)
  , mkPat "^touch\\s+" (rlit "touch" ++ rws1)
  , mkPat "^cp\\s+" (rlit "cp" ++ rws1)
  , mkPat "^mv\\s+" (rlit "mv" ++ rws1)
  , mkPat "^python3?\\s+" (rlit "python" ++ ropt '3' ++ rws1)
  , mkPat "^node\\s+" (rlit "node" ++ rws1)
  , mkPat "^npm\\s+run" (rlit "npm" ++ rws1 ++ rlit "run")
  , mkPat "^git\\s+" (rlit "git" ++ rws1)
  , mkPat "^vim?\\s+" (rlit "vi" ++ ropt 'm' ++ rws1)
  , mkPat "^nano\\s+" (rlit "nano" ++ rws1)
  , mkPat "^less\\s+" (rlit "less" ++ rws1)
  , mkPat "^more\\s+" (rlit "more" ++ rws1)
  , mkPat "^wc\\s+" (rlit "wc" ++ rws1)
  , mkPat "^sort\\s+" (rlit "sort" ++ rws1)
  , mkPat "^uniq\\s+" (rlit "uniq" ++ rws1)
  , mkPat "^cut\\s+" (rlit "cut" ++ rws1)
  , mkPat "^awk\\s+" (rlit "awk" ++ rws1)
  , mkPat "^sed\\s+" (rlit "sed" ++ rws1)
  ]

/-- Model of Python's substring test `p in l` on character lists. -/
def containsSub (p l : List Char) : Bool :=
  l.tails.any (fun t => p.isPrefixOf t)

/-- The `dangerous_chars` list of `_validate_command`. -/
def dangerousChars : List Char := [';', '&', '|', '`', '$', '(', ')']

/-- Embedding of `DecisionEngine._validate_command` on character lists.
The source first treats an empty or whitespace-only command as valid,
strips the command, scans the dangerous patterns with `re.search`, then
requires a match of some allowed pattern with `re.match`, rejects a
command containing `..`, and finally rejects the first dangerous
character found — where a `&` is excused whenever the substring `&&`
occurs anywhere in the command. -/
def validateCommandL (cmd0 : List Char) : Bool × String :=
  if (pyStrip cmd0).isEmpty then (true, "空命令，跳过验证")
  else
    match dangerous_commands.find? (fun p => reSearch p (pyStrip cmd0)) with
    | some p => (false, "命令包含危险操作: " ++ p.src)
    | none =>
      if !(allowed_command_patterns.any (fun p => reMatchAt p (pyStrip cmd0))) then
        (false, "命令不匹配允许的模式")
      else if containsSub ['.', '.'] (pyStrip cmd0) then
        (false, "命令包含路径遍历风险")
      else
        match dangerousChars.find?
            (fun c => (pyStrip cmd0).contains c
              && !(c == '&' && containsSub ['&', '&'] (pyStrip cmd0))) with
        | some c => (false, "命令包含危险字符: " ++ c.toString)
        | none => (true, "命令验证通过")

/-- Embedding of `DecisionEngine._validate_command` on `String`. -/
def validate_command (cmd : String) : Bool × String :=
  validateCommandL cmd.data

/-! ## History getters (`observer.py`, `decision_engine.py`, `whisper_injection.py`)

Each in-memory history is a Python list; the getters slice it with a
negative index, so the Python slice `l[-limit:]` is modelled exactly,
including its clamping and the `-0 = 0` case. -/

/-- Model of the Python slice `l[s:]` for an arbitrary integer start. -/
def pySliceFrom (l : List α) (s : Int) : List α :=
  if s < 0 then l.drop (((l.length : Int) + s) ⊔ 0).toNat else l.drop s.toNat

/-- Embedding of `Observer.get_recent_observations`:
`self.observations[-limit:] if self.observations else []`. -/
def get_recent_observations (observations : List α) (limit : Int) : List α :=
  if observations.isEmpty then [] else pySliceFrom observations (-limit)

/-- Embedding of `DecisionEngine.get_recent_decisions`:
`self.decisions[-limit:] if self.decisions else []`. -/
def get_recent_decisions (decisions : List α) (limit : Int) : List α :=
  if decisions.isEmpty then [] else pySliceFrom decisions (-limit)

/-- Embedding of `WhisperInjectionManager.get_injection_logs`:
`self.injection_logs[-limit:] if limit > 0 else self.injection_logs`. -/
def get_injection_logs (injection_logs : List α) (limit : Int) : List α :=
  if 0 < limit then pySliceFrom injection_logs (-limit) else injection_logs

/-! ## Container Manager exec (`container_manager.py`)

`ContainerManager.exec_command` builds the engine invocation
`["docker", "exec", container_name] + command.split()` and hands it to
`asyncio.create_subprocess_exec`.  The engine is a parameter; alongside
the returned result dictionary the embedding reports every argument
vector passed to the engine, so that a theorem can speak about what was
or was not executed. -/

/-- Result dictionary shape shared by `exec_command` and the Decision
Engine's view of it: `{"success": ..., "output": ..., "error": ...}`. -/
structure ExecResult : Type where
  success : Bool
  output : String
  error : String
deriving DecidableEq

/-- Possible outcomes of one container-engine subprocess. -/
inductive EngineOutcome : Type
  | ok (stdout : String)
  | failed (stderr : String)
  | timedOut
deriving DecidableEq

/-- Embedding of `ContainerManager.exec_command`.  The second component
collects the argument vectors passed to the container engine. -/
def exec_command (engine : List String → EngineOutcome) (container_name : String)
    (exec_timeout : Nat) (command : String) : ExecResult × List (List String) :=
  let cmd := ["docker", "exec", container_name] ++ pySplitWs command
  match engine cmd with
  | .ok out =>
      ({ success := true, output := String.mk (pyStrip out.data), error := "" }, [cmd])
  | .failed err =>
      ({ success := false, output := ""
       , error := "命令执行失败: " ++ String.mk (pyStrip err.data) }, [cmd])
  | .timedOut =>
      ({ success := false, output := ""
       , error := "命令执行超时 (" ++ toString exec_timeout ++ "秒): " ++ command }, [cmd])

/-! ## Decision cycle (`decision_engine.py`) -/

/-- The decision object produced by `_generate_decision` (after its
normalisation, every field is present). -/
structure DecisionVal : Type where
  reasoning : String
  command : String
  expected_outcome : String
  risk_level : String

/-- The `execution_result` dictionary attached to a decision; absent
keys are `none`.  The wall-clock `execution_time` entry is not modelled. -/
structure ExecutionResult : Type where
  success : Bool
  message : Option String := none
  command : Option String := none
  output : Option String := none
  error : Option String := none

/-- Embedding of `DecisionEngine._execute_decision`: strip the command,
skip empty commands, validate, and only then call the Container
Manager's `exec_command` (abstracted as `execF`).  The second component
lists the commands actually handed to the Container Manager. -/
def execute_decision (execF : String → ExecResult) (decision : DecisionVal) :
    ExecutionResult × List String :=
  let command := pyStrip decision.command.data
  if command.isEmpty then
    ({ success := true, message := some "无需执行命令" }, [])
  else
    let cmdS := String.mk command
    let v := validateCommandL command
    if !v.1 then
      ({ success := false, error := some ("命令验证失败: " ++ v.2), command := some cmdS }, [])
    else
      let r := execF cmdS
      if r.success then
        ({ success := true, command := some cmdS, output := some r.output }, [cmdS])
      else
        ({ success := false, command := some cmdS, error := some r.error }, [cmdS])

/-- One record appended to `self.decisions` by a successful cycle
(timestamps and the static metadata block are logging details left out). -/
structure DecisionRecord (Obs : Type) : Type where
  observations : List Obs
  decision : DecisionVal
  execution_result : ExecutionResult

/-- Embedding of `DecisionEngine._perform_decision_cycle`.  It fetches
the five most recent observations, skips the cycle entirely when none
exist, otherwise generates a decision (abstracted as `gen`), executes a
non-empty command through `execute_decision`, and appends one record.
The result is the list of appended records together with the commands
handed to the Container Manager. -/
def perform_decision_cycle {Obs : Type} (observations : List Obs)
    (gen : List Obs → DecisionVal) (execF : String → ExecResult) :
    List (DecisionRecord Obs) × List String :=
  let recent := get_recent_observations observations 5
  if recent.isEmpty then ([], [])
  else
    let decision := gen recent
    let step :=
      if decision.command ≠ "" then execute_decision execF decision
      else ({ success := true, message := some "无需执行命令" }, [])
    ([⟨recent, decision, step.1⟩], step.2)

/-! ## Cache Manager (`core/cache_manager.py`)

Time is an explicit `Int` (seconds); the Redis tier and the JSON
round-trip through it are idealised as a `RedisModel` whose operations
can fail, matching the `try`/`except` structure of the source. -/

/-- One entry of `self.memory_cache`. -/
structure CacheEntry (V : Type) : Type where
  value : V
  expires_at : Int
  created_at : Int

/-- External Redis client model: `setex` and `get`, each able to raise. -/
structure RedisModel (V : Type) : Type where
  setex : String → Int → V → Except Unit Unit
  redisGet : String → Except Unit (Option V)

/-- The Cache Manager's state and configuration. -/
structure CacheMgr (V : Type) : Type where
  default_ttl : Int
  redis_enabled : Bool
  has_client : Bool
  memory_cache : String → Option (CacheEntry V)

/-- Model of `ttl = ttl or self.default_ttl`: `None` and `0` both fall
back to the default. -/
def pyOrTtl (ttl : Option Int) (dflt : Int) : Int :=
  match ttl with
  | none => dflt
  | some t => if t = 0 then dflt else t

/-- Embedding of `CacheManager.set`: compute the expiry, attempt the
Redis write when the remote tier is enabled (a raise makes the returned
flag `false`), and unconditionally store the entry in the memory cache. -/
def cacheSet {V : Type} (m : CacheMgr V) (redis : RedisModel V) (now : Int)
    (key : String) (value : V) (ttl? : Option Int) : Bool × CacheMgr V :=
  let ttl := pyOrTtl ttl? m.default_ttl
  let entry : CacheEntry V := ⟨value, now + ttl, now⟩
  let success :=
    if m.redis_enabled && m.has_client then
      match redis.setex key ttl value with
      | .ok _ => true
      | .error _ => false
    else true
  (success, { m with memory_cache := fun k => if k = key then some entry else m.memory_cache k })

/-- Embedding of `CacheManager.get`: try Redis first when enabled (a
raise or a miss falls through), then the memory cache, whose entry is
returned only while `expires_at > now`. -/
def cacheGet {V : Type} (m : CacheMgr V) (redis : RedisModel V) (now : Int)
    (key : String) : Option V :=
  let remote : Option V :=
    if m.redis_enabled && m.has_client then
      match redis.redisGet key with
      | .ok (some v) => some v
      | _ => none
    else none
  match remote with
  | some v => some v
  | none =>
    match m.memory_cache key with
    | some e => if e.expires_at > now then some e.value else none
    | none => none

/-! ## Auth (`auth.py`)

The external `jose` JWT library is idealised: a token either carries a
claims object, the key it was signed with and the algorithm name, or is
malformed; decoding verifies the key and algorithm and rejects a present
`exp` claim that is not in the future.  `passlib` password hashing is
abstracted as a `verify` parameter.  Time is an explicit `Int`
timestamp, so `datetime.utcnow()` becomes the `now` argument and
"immediately followed by" means the same `now`. -/

/-- Claim set relevant to the embedded code paths: the `sub` and `exp`
entries of the payload dictionary. -/
structure JwtClaims : Type where
  sub : Option String
  exp : Option Int
deriving DecidableEq

/-- Idealised signed token of the external JWT library. -/
inductive JwtToken : Type
  | signed (claims : JwtClaims) (key : String) (alg : String)
  | malformed
deriving DecidableEq

/-- Model of `jose.jwt.encode`. -/
def jwtEncode (claims : JwtClaims) (key : String) (alg : String) : JwtToken :=
  .signed claims key alg

/-- Model of `jose.jwt.decode`: a malformed token, a signature made with
a different key, an algorithm outside the accepted list, and an `exp`
claim not in the future all raise `JWTError`, here `none`. -/
def jwtDecode (tok : JwtToken) (key : String) (algs : List String) (now : Int) :
    Option JwtClaims :=
  match tok with
  | .malformed => none
  | .signed claims k alg =>
    if k = key ∧ alg ∈ algs then
      match claims.exp with
      | some e => if e ≤ now then none else some claims
      | none => some claims
    else none

/-- The fields of `TokenData` returned by `verify_token`. -/
structure TokenData : Type where
  username : Option String
  exp : Option Int
deriving DecidableEq

/-- Configuration of `AuthManager.__init__` (the password hash is the
stored `admin_password_hash`). -/
structure AuthMgr : Type where
  jwt_secret_key : String
  jwt_algorithm : String
  jwt_expiration_hours : Int
  admin_username : String
  admin_password_hash : String

/-- Embedding of `AuthManager.authenticate_user`; `verify` is the
`passlib` verification of a plaintext password against a stored hash. -/
def authenticate_user (verify : String → String → Bool) (m : AuthMgr)
    (username password : String) : Bool :=
  if username = m.admin_username then verify password m.admin_password_hash else false

/-- Embedding of `AuthManager.create_access_token`: copy the claims and
overwrite `exp` with `now + jwt_expiration_hours` hours. -/
def create_access_token (m : AuthMgr) (now : Int) (data : JwtClaims) : JwtToken :=
  let expire := now + m.jwt_expiration_hours * 3600
  jwtEncode { data with exp := some expire } m.jwt_secret_key m.jwt_algorithm

/-- Embedding of `AuthManager.verify_token`: decode, then require a
`sub` username; any decoding failure yields `none`. -/
def verify_token (m : AuthMgr) (now : Int) (token : JwtToken) : Option TokenData :=
  match jwtDecode token m.jwt_secret_key [m.jwt_algorithm] now with
  | none => none
  | some payload =>
    match payload.sub with
    | none => none
    | some u => some ⟨some u, payload.exp⟩

/-! ## ADB planner (`adb_agent_controller/ai.py`)

The remote chat call is a parameter of type `Except Unit String`: an
`error` is an exception raised by the client (which the source does not
catch), an `ok` carries `response.choices[0].message.content or ""`.
The `json.loads`-plus-extraction step on that content is abstracted as
`jsonParse`, returning the extracted `summary` and filtered `steps` when
the content parses as a JSON object and `none` on `JSONDecodeError`. -/

/-- The planner's result value. -/
structure Plan : Type where
  summary : String
  steps : List String
deriving DecidableEq

/-- One persistent memory entry of the ADB controller. -/
structure MemoryEntry : Type where
  app : String
  note : String
deriving DecidableEq

/-- Embedding of `AIPlanner._offline_plan`: a deterministic, templated
plan listing the memories verbatim plus three fixed steps. -/
def offline_plan (goal : String) (memories : List MemoryEntry) : Plan :=
  let memories_text := memories.map (fun m => "- " ++ m.app ++ ": " ++ m.note)
  let steps :=
    [ "确认设备和目标应用（当前记忆 " ++ toString memories_text.length ++ " 条）"
    , "根据目标描述编写或调用脚本"
    , "通过 ADB 执行脚本并监控输出" ]
  let summary_lines :=
    ["目标: " ++ goal, "可用记忆:"]
      ++ (if memories_text.isEmpty then ["(暂无记忆，建议先记录关键操作)"] else memories_text)
  ⟨String.intercalate "\n" summary_lines, steps⟩

/-- Embedding of `AIPlanner._remote_plan`.  Without a client it returns
`none`; an exception from the chat call propagates; otherwise the JSON
path is tried first and the line-fallback second, exactly as in the
source: non-empty lines of the message, stripped of leading and trailing
`-` and spaces, capped to six. -/
def remote_plan (jsonParse : String → Option (String × List String))
    (call : Except Unit String) (hasClient : Bool) : Except Unit (Option Plan) :=
  if !hasClient then .ok none
  else
    match call with
    | .error e => .error e
    | .ok message =>
      let viaJson : Option Plan :=
        match jsonParse message with
        | some (summary, steps) =>
          if summary ≠ "" ∧ steps ≠ [] then some ⟨summary, steps⟩ else none
        | none => none
      match viaJson with
      | some p => .ok (some p)
      | none =>
        let fallback_steps :=
          (pySplitLines message.data).filterMap fun line =>
            if (pyStrip line).isEmpty then none
            else some (String.mk (pyStripOn ['-', ' '] line))
        if message ≠ "" ∧ fallback_steps ≠ [] then
          .ok (some ⟨message, fallback_steps.take 6⟩)
        else .ok none

/-- Embedding of `AIPlanner.plan`: decide whether to use the remote
path, return its plan when it produced one, fall back to the offline
plan when it produced none — and propagate any exception it raised. -/
def adbPlan (jsonParse : String → Option (String × List String))
    (call : Except Unit String) (hasClient : Bool) (goal : String)
    (memories : List MemoryEntry) (mode : String) : Except Unit Plan :=
  let use_remote := mode = "remote" ∨ (mode = "auto" ∧ hasClient = true)
  if use_remote ∧ hasClient = true then
    match remote_plan jsonParse call hasClient with
    | .error e => .error e
    | .ok (some p) => .ok p
    | .ok none => .ok (offline_plan goal memories)
  else .ok (offline_plan goal memories)

/-! ## Helper lemmas -/

/-- The Python substring test agrees with `List.IsInfix`. -/
theorem containsSub_iff {p l : List Char} : containsSub p l = true ↔ p <:+: l := by
  unfold containsSub
  rw [List.any_eq_true]
  constructor
  · rintro ⟨t, ht, hp⟩
    rw [List.mem_tails] at ht
    rw [List.isPrefixOf_iff_prefix] at hp
    exact List.infix_iff_prefix_suffix.mpr ⟨t, hp, ht⟩
  · intro h
    obtain ⟨t, hp, ht⟩ := List.infix_iff_prefix_suffix.mp h
    exact ⟨t, (List.mem_tails _ _).mpr ht, List.isPrefixOf_iff_prefix.mpr hp⟩

/-- Membership of an element the guard refuses survives `dropWhile`. -/
theorem mem_dropWhile_of_neg {c : Char} {q : Char → Bool} (hq : q c = false) :
    ∀ {l : List Char}, c ∈ l → c ∈ l.dropWhile q := by
  intro l
  induction l with
  | nil => intro h; cases h
  | cons a l ih =>
    intro h
    rw [List.dropWhile_cons]
    by_cases hqa : q a = true
    · rw [if_pos hqa]
      rcases List.mem_cons.mp h with rfl | h'
      · rw [hq] at hqa; cases hqa
      · exact ih h'
    · rw [if_neg hqa]
      exact h

/-- Membership of a non-whitespace character survives `pyStrip`. -/
theorem mem_pyStrip {c : Char} {l : List Char} (h : c ∈ l) (hw : isWsChar c = false) :
    c ∈ pyStrip l := by
  unfold pyStrip
  exact List.mem_reverse.mpr
    (mem_dropWhile_of_neg hw (List.mem_reverse.mpr (mem_dropWhile_of_neg hw h)))

/-- The stripped command is an infix of the original command. -/
theorem pyStrip_infix_self (l : List Char) : pyStrip l <:+: l := by
  unfold pyStrip
  have h2 : ((l.dropWhile isWsChar).reverse.dropWhile isWsChar) <:+
      (l.dropWhile isWsChar).reverse := List.dropWhile_suffix _
  have h3 : ((l.dropWhile isWsChar).reverse.dropWhile isWsChar).reverse <:+:
      (l.dropWhile isWsChar) := by
    rw [← List.reverse_infix]
    simpa using h2.isInfix
  exact h3.trans (List.dropWhile_suffix _).isInfix

/-- An infix whose characters the guard all refuses survives `dropWhile`. -/
theorem infix_dropWhile {p : List Char} {q : Char → Bool} (hp : ∀ c ∈ p, q c = false)
    (hne : p ≠ []) : ∀ {l : List Char}, p <:+: l → p <:+: l.dropWhile q := by
  intro l
  induction l with
  | nil =>
    intro h
    exact absurd (List.eq_nil_of_length_eq_zero (Nat.le_zero.mp h.length_le)) hne
  | cons a l ih =>
    intro h
    obtain ⟨s, t, hst⟩ := h
    rw [List.dropWhile_cons]
    by_cases hqa : q a = true
    · rw [if_pos hqa]
      cases s with
      | nil =>
        cases p with
        | nil => exact absurd rfl hne
        | cons b p' =>
          simp only [List.nil_append, List.cons_append] at hst
          have hb : a = b := by injection hst with h1 _; exact h1.symm
          have hqb : q b = false := hp b (List.mem_cons_self _ _)
          rw [hb, hqb] at hqa
          cases hqa
      | cons b s' =>
        apply ih
        simp only [List.cons_append] at hst
        injection hst with _ h2
        exact ⟨s', t, h2⟩
    · rw [if_neg hqa]
      exact ⟨s, t, hst⟩

/-- A non-empty infix made of non-whitespace characters survives `pyStrip`. -/
theorem infix_pyStrip {p l : List Char} (h : p <:+: l)
    (hp : ∀ c ∈ p, isWsChar c = false) (hne : p ≠ []) : p <:+: pyStrip l := by
  unfold pyStrip
  have h1 : p <:+: l.dropWhile isWsChar := infix_dropWhile hp hne h
  have h2 : p.reverse <:+: (l.dropWhile isWsChar).reverse := List.reverse_infix.mpr h1
  have hp' : ∀ c ∈ p.reverse, isWsChar c = false := fun c hc => hp c (List.mem_reverse.mp hc)
  have hne' : p.reverse ≠ [] := by simpa using hne
  have h3 : p.reverse <:+: (l.dropWhile isWsChar).reverse.dropWhile isWsChar :=
    infix_dropWhile hp' hne' h2
  rw [← List.reverse_infix]
  simpa using h3

/-! ## Claim theorems -/

/-- C3: the Decision Engine's validator allows the literal commands
`ls -la`, `pwd` and `echo hello`, and rejects `rm -rf /`, `shutdown now`
and `reboot` with a reason quoting the matched dangerous pattern. -/
theorem validate_command_soundness_cases :
    validate_command "ls -la" = (true, "命令验证通过")
    ∧ validate_command "pwd" = (true, "命令验证通过")
    ∧ validate_command "echo hello" = (true, "命令验证通过")
    ∧ validate_command "rm -rf /" = (false, "命令包含危险操作: rm\\s+-rf\\s+/")
    ∧ validate_command "shutdown now" = (false, "命令包含危险操作: shutdown")
    ∧ validate_command "reboot" = (false, "命令包含危险操作: reboot")
    ∧ containsSub ("rm\\s+-rf\\s+/").data (validate_command "rm -rf /").2.data = true
    ∧ containsSub ("shutdown").data (validate_command "shutdown now").2.data = true
    ∧ containsSub ("reboot").data (validate_command "reboot").2.data = true := by
  decide

/-- C2 counterexample: the command `ls -a && b & c` contains a lone `&`
that is not part of a `&&` operator (it stands between two spaces), yet
`_validate_command` accepts it — the source skips the `&` check entirely
as soon as `&&` occurs anywhere in the command. -/
theorem validate_command_lone_amp_allowed :
    containsSub [' ', '&', ' '] ("ls -a && b & c").data = true
    ∧ containsSub ['&', '&'] ("ls -a && b & c").data = true
    ∧ (validate_command "ls -a && b & c").1 = true := by
  decide

/-- C2 (amended): every command containing `..` is rejected, and every
command containing one of `; | \x60 $ ( )` is rejected; a command
containing `&` is rejected when it does not contain the substring `&&` —
but when `&&` occurs anywhere, all `&` occurrences pass the character
check, so a lone `&` alongside a `&&` is not rejected by it. -/
theorem validate_command_reject_rules :
    (∀ cmd : String, containsSub ['.', '.'] cmd.data = true →
      (validate_command cmd).1 = false)
    ∧ (∀ (cmd : String) (c : Char), c ∈ dangerousChars → c ∈ cmd.data →
        (c = '&' → containsSub ['&', '&'] cmd.data = false) →
        (validate_command cmd).1 = false) := by
  have hfalse : ∀ (cmd0 : List Char),
      (pyStrip cmd0).isEmpty = false →
      (containsSub ['.', '.'] (pyStrip cmd0) = true ∨
        ∃ c ∈ dangerousChars, (pyStrip cmd0).contains c = true ∧
          (c == '&' && containsSub ['&', '&'] (pyStrip cmd0)) = false) →
      (validateCommandL cmd0).1 = false := by
    intro cmd0 hne hcase
    unfold validateCommandL
    rw [if_neg (by simp [hne])]
    split
    · rfl
    · split
      · rfl
      · rcases hcase with hdot | ⟨c, hc, hcontains, hguard⟩
        · rw [if_pos hdot]
        · by_cases hdot : containsSub ['.', '.'] (pyStrip cmd0) = true
          · rw [if_pos hdot]
          · rw [if_neg hdot]
            split
            · rfl
            next hfind =>
              exfalso
              have hall := List.find?_eq_none.mp hfind c hc
              apply hall
              rw [Bool.and_eq_true, Bool.not_eq_true']
              exact ⟨hcontains, hguard⟩
  constructor
  · intro cmd h
    have hin : ['.', '.'] <:+: cmd.data := containsSub_iff.mp h
    have hws : ∀ c ∈ (['.', '.'] : List Char), isWsChar c = false := by decide
    have hstrip : ['.', '.'] <:+: pyStrip cmd.data :=
      infix_pyStrip hin hws (by decide)
    have hnonempty : (pyStrip cmd.data).isEmpty = false := by
      rw [List.isEmpty_eq_false]
      intro hnil
      rw [hnil] at hstrip
      exact absurd (List.eq_nil_of_length_eq_zero (Nat.le_zero.mp hstrip.length_le))
        (by decide)
    exact hfalse cmd.data hnonempty (Or.inl (containsSub_iff.mpr hstrip))
  · intro cmd c hc hmem hamp
    have hwc : isWsChar c = false := by
      have hall : ∀ c ∈ dangerousChars, isWsChar c = false := by decide
      exact hall c hc
    have hmem' : c ∈ pyStrip cmd.data := mem_pyStrip hmem hwc
    have hnonempty : (pyStrip cmd.data).isEmpty = false := by
      rw [List.isEmpty_eq_false]
      intro hnil
      rw [hnil] at hmem'
      cases hmem'
    apply hfalse cmd.data hnonempty
    refine Or.inr ⟨c, hc, ?_, ?_⟩
    · simpa [List.contains] using List.elem_iff.mpr hmem'
    · by_cases hceq : c = '&'
      · have h0 := hamp hceq
        have hstripAmp : containsSub ['&', '&'] (pyStrip cmd.data) = false := by
          by_contra hne2
          rw [Bool.not_eq_false] at hne2
          have h1 : ['&', '&'] <:+: cmd.data :=
            (containsSub_iff.mp hne2).trans (pyStrip_infix_self cmd.data)
          rw [containsSub_iff.mpr h1] at h0
          cases h0
        rw [hstripAmp, hceq]
        simp
      · have : (c == '&') = false := by
          simpa using hceq
        rw [this]
        simp

/-- C2 witness: the reject rules applied to `ls ..` and to `ls ;`. -/
theorem validate_command_reject_rules_witness :
    (validate_command "ls ..").1 = false ∧ (validate_command "ls ;").1 = false :=
  ⟨validate_command_reject_rules.1 "ls .." (by decide),
   validate_command_reject_rules.2 "ls ;" ';' (by decide) (by decide) (by decide)⟩

/-- C4: with zero available observations, one decision cycle appends no
record to the decision history and hands no command to the Container
Manager. -/
theorem decision_cycle_skip_on_empty {Obs : Type} (gen : List Obs → DecisionVal)
    (execF : String → ExecResult) :
    perform_decision_cycle ([] : List Obs) gen execF = ([], []) := rfl

/-- C10: on a non-empty history, a limit of `0` returns the whole
history from all three getters (the Python slice `l[-0:]` is `l[0:]`),
and a positive limit smaller than the length returns exactly the last
`limit` records. -/
theorem history_getters_limit_zero_and_positive {α : Type} (hist : List α)
    (hne : hist ≠ []) (limit : Int) (hpos : 0 < limit)
    (hlt : limit < (hist.length : Int)) :
    get_recent_observations hist 0 = hist
    ∧ get_recent_decisions hist 0 = hist
    ∧ get_injection_logs hist 0 = hist
    ∧ get_recent_observations hist limit = hist.drop (hist.length - limit.toNat)
    ∧ get_recent_decisions hist limit = hist.drop (hist.length - limit.toNat)
    ∧ get_injection_logs hist limit = hist.drop (hist.length - limit.toNat)
    ∧ (hist.drop (hist.length - limit.toNat)).length = limit.toNat := by
  have hempty : hist.isEmpty = false := List.isEmpty_eq_false.mpr hne
  have hzero : pySliceFrom hist (-(0 : Int)) = hist := by
    unfold pySliceFrom
    norm_num
  have hposCase : pySliceFrom hist (-limit) = hist.drop (hist.length - limit.toNat) := by
    unfold pySliceFrom
    rw [if_pos (by omega)]
    congr 1
    have hsup : ((hist.length : Int) + -limit) ⊔ 0 = (hist.length : Int) - limit := by
      rw [sup_eq_left.mpr (by omega)]
      omega
    rw [hsup]
    omega
  refine ⟨?_, ?_, ?_, ?_, ?_, ?_, ?_⟩
  · unfold get_recent_observations
    rw [if_neg (by simp [hempty]), hzero]
  · unfold get_recent_decisions
    rw [if_neg (by simp [hempty]), hzero]
  · unfold get_injection_logs
    rw [if_neg (by omega)]
  · unfold get_recent_observations
    rw [if_neg (by simp [hempty]), hposCase]
  · unfold get_recent_decisions
    rw [if_neg (by simp [hempty]), hposCase]
  · unfold get_injection_logs
    rw [if_pos hpos, hposCase]
  · rw [List.length_drop]
    omega

/-- C10 witness: the getters applied to a five-record history with
limits `0` and `2`. -/
theorem history_getters_limit_witness :
    get_recent_observations [1, 2, 3, 4, 5] (0 : Int) = [1, 2, 3, 4, 5]
    ∧ get_recent_decisions [1, 2, 3, 4, 5] (0 : Int) = [1, 2, 3, 4, 5]
    ∧ get_injection_logs [1, 2, 3, 4, 5] (0 : Int) = [1, 2, 3, 4, 5]
    ∧ get_recent_observations [1, 2, 3, 4, 5] (2 : Int)
        = List.drop ([1, 2, 3, 4, 5].length - (2 : Int).toNat) [1, 2, 3, 4, 5]
    ∧ get_recent_decisions [1, 2, 3, 4, 5] (2 : Int)
        = List.drop ([1, 2, 3, 4, 5].length - (2 : Int).toNat) [1, 2, 3, 4, 5]
    ∧ get_injection_logs [1, 2, 3, 4, 5] (2 : Int)
        = List.drop ([1, 2, 3, 4, 5].length - (2 : Int).toNat) [1, 2, 3, 4, 5]
    ∧ (List.drop ([1, 2, 3, 4, 5].length - (2 : Int).toNat) [1, 2, 3, 4, 5]).length
        = (2 : Int).toNat :=
  history_getters_limit_zero_and_positive [1, 2, 3, 4, 5] (by decide) 2 (by decide)
    (by decide)

/-- C9: for every command, `exec_command` invokes the engine with
exactly `["docker", "exec", container_name]` followed by the
whitespace-split of the command, so an argument quoted to contain a
space arrives as two separate arguments. -/
theorem exec_command_argv_whitespace_split (engine : List String → EngineOutcome)
    (container_name : String) (exec_timeout : Nat) (command : String) :
    (exec_command engine container_name exec_timeout command).2
      = [["docker", "exec", container_name] ++ pySplitWs command]
    ∧ pySplitWs "echo \"hello world\"" = ["echo", "\"hello", "world\""] := by
  constructor
  · cases h : engine (["docker", "exec", container_name] ++ pySplitWs command) <;>
      simp only [List.cons_append, List.nil_append] at h <;>
      simp [exec_command, h]
  · decide

/-- C1: the command filter required by the specification and by the
repository's own security tests is absent from
`ContainerManager.exec_command` — the dangerous command `rm -rf /` is
handed to the container engine unchanged, and when the engine succeeds
the call reports success instead of a security-policy failure. -/
theorem exec_command_unfiltered_rm_rf :
    (∀ (engine : List String → EngineOutcome) (t : Nat),
      (exec_command engine "agent-debian" t "rm -rf /").2
        = [["docker", "exec", "agent-debian", "rm", "-rf", "/"]])
    ∧ (exec_command (fun _ => EngineOutcome.ok "") "agent-debian" 30 "rm -rf /").1
        = ⟨true, "", ""⟩ := by
  constructor
  · intro engine t
    cases h : engine (["docker", "exec", "agent-debian"] ++ pySplitWs "rm -rf /") <;>
      simp only [List.cons_append, List.nil_append] at h <;>
      simp [exec_command, h] <;> decide
  · rfl

/-- C5 counterexample: with the remote tier enabled and raising,
`CacheManager.set` returns `false`, not `true` as the claim states. -/
theorem cache_set_remote_failure_returns_false :
    (cacheSet (V := Nat) ⟨300, true, true, fun _ => none⟩
      ⟨fun _ _ _ => .error (), fun _ => .error ()⟩ 0 "k" 7 (some 10)).1 = false := rfl

/-- C5 (amended): when the remote tier raises during `set`, the value is
still stored in the local tier — a subsequent `get` before expiry (with
the remote tier still failing) returns it — but `set` reports the remote
failure by returning `false`. -/
theorem cache_set_remote_failure_degrades {V : Type} (m : CacheMgr V)
    (redis : RedisModel V) (now t : Int) (key : String) (value : V) (ttl? : Option Int)
    (hen : m.redis_enabled = true) (hcl : m.has_client = true)
    (hfail : redis.setex key (pyOrTtl ttl? m.default_ttl) value = .error ())
    (hgfail : redis.redisGet key = .error ())
    (hbefore : t < now + pyOrTtl ttl? m.default_ttl) :
    (cacheSet m redis now key value ttl?).1 = false
    ∧ cacheGet (cacheSet m redis now key value ttl?).2 redis t key = some value := by
  constructor
  · simp [cacheSet, hen, hcl, hfail]
  · simp [cacheSet, cacheGet, hen, hcl, hgfail]
    omega

/-- C5 witness: the degradation at a concrete failing remote tier. -/
theorem cache_set_remote_failure_degrades_witness :
    (cacheSet (V := Nat) ⟨300, true, true, fun _ => none⟩
      ⟨fun _ _ _ => .error (), fun _ => .error ()⟩ 0 "k" 7 (some 10)).1 = false
    ∧ cacheGet (cacheSet (V := Nat) ⟨300, true, true, fun _ => none⟩
        ⟨fun _ _ _ => .error (), fun _ => .error ()⟩ 0 "k" 7 (some 10)).2
        ⟨fun _ _ _ => .error (), fun _ => .error ()⟩ 5 "k" = some 7 :=
  cache_set_remote_failure_degrades ⟨300, true, true, fun _ => none⟩
    ⟨fun _ _ _ => .error (), fun _ => .error ()⟩ 0 5 "k" 7 (some 10)
    rfl rfl rfl rfl (by decide)

/-- C6: with the remote tier disabled, a `set` with positive TTL makes
`get` return the value while fewer than TTL seconds have elapsed and
nothing once more than TTL seconds have elapsed; setting the same key
again leaves only the second value retrievable. -/
theorem cache_ttl_semantics {V : Type} (m : CacheMgr V) (redis : RedisModel V)
    (k : String) (v v2 : V) (ttl t0 t t1 tq : Int)
    (hdis : m.redis_enabled = false) (hpos : 0 < ttl) :
    (t - t0 < ttl → cacheGet (cacheSet m redis t0 k v (some ttl)).2 redis t k = some v)
    ∧ (ttl < t - t0 → cacheGet (cacheSet m redis t0 k v (some ttl)).2 redis t k = none)
    ∧ (tq - t1 < ttl →
        cacheGet (cacheSet (cacheSet m redis t0 k v (some ttl)).2 redis t1 k v2
          (some ttl)).2 redis tq k = some v2)
    ∧ (v ≠ v2 → tq - t1 < ttl →
        cacheGet (cacheSet (cacheSet m redis t0 k v (some ttl)).2 redis t1 k v2
          (some ttl)).2 redis tq k ≠ some v) := by
  have httl : pyOrTtl (some ttl) m.default_ttl = ttl := by
    show (if ttl = 0 then m.default_ttl else ttl) = ttl
    rw [if_neg (show ¬ttl = 0 by omega)]
  refine ⟨?_, ?_, ?_, ?_⟩
  · intro hlt
    simp [cacheSet, cacheGet, hdis, httl]
    omega
  · intro hgt
    simp [cacheSet, cacheGet, hdis, httl]
    omega
  · intro hlt
    simp [cacheSet, cacheGet, hdis, httl]
    omega
  · intro hneq hlt
    simp [cacheSet, cacheGet, hdis, httl]
    intro _ hh
    exact hneq hh.symm

/-- C6 witness: concrete TTL behaviour on a two-write history. -/
theorem cache_ttl_semantics_witness :
    cacheGet (cacheSet (V := Nat) ⟨300, false, false, fun _ => none⟩
        ⟨fun _ _ _ => .ok (), fun _ => .ok none⟩ 0 "k" 1 (some 1)).2
      ⟨fun _ _ _ => .ok (), fun _ => .ok none⟩ 0 "k" = some 1
    ∧ cacheGet (cacheSet (V := Nat) ⟨300, false, false, fun _ => none⟩
        ⟨fun _ _ _ => .ok (), fun _ => .ok none⟩ 0 "k" 1 (some 1)).2
      ⟨fun _ _ _ => .ok (), fun _ => .ok none⟩ 2 "k" = none
    ∧ cacheGet (cacheSet (cacheSet (V := Nat) ⟨300, false, false, fun _ => none⟩
        ⟨fun _ _ _ => .ok (), fun _ => .ok none⟩ 0 "k" 1 (some 1)).2
        ⟨fun _ _ _ => .ok (), fun _ => .ok none⟩ 10 "k" 2 (some 1)).2
      ⟨fun _ _ _ => .ok (), fun _ => .ok none⟩ 10 "k" = some 2 := by
  have h := cache_ttl_semantics (V := Nat) ⟨300, false, false, fun _ => none⟩
    ⟨fun _ _ _ => .ok (), fun _ => .ok none⟩ "k" 1 2 1 0 0 10 10 rfl (by decide)
  have h2 := cache_ttl_semantics (V := Nat) ⟨300, false, false, fun _ => none⟩
    ⟨fun _ _ _ => .ok (), fun _ => .ok none⟩ "k" 1 2 1 0 2 10 10 rfl (by decide)
  exact ⟨h.1 (by decide), h2.2.1 (by decide), h.2.2.1 (by decide)⟩

/-- C7: authentication succeeds exactly when the username is the
configured admin username and the password verifies against the stored
hash; a freshly issued token verifies back to its `sub` username with a
future expiry; and verification returns `none` for an expired token, a
token signed with a different key, and a malformed token. -/
theorem auth_token_roundtrip (verify : String → String → Bool) (m : AuthMgr)
    (u p : String) (now : Int) (data : JwtClaims) (subj : String)
    (claims : JwtClaims) (k alg : String) (e : Int)
    (hsub : data.sub = some subj) (hpos : 0 < m.jwt_expiration_hours) :
    (authenticate_user verify m u p = true ↔
      (u = m.admin_username ∧ verify p m.admin_password_hash = true))
    ∧ verify_token m now (create_access_token m now data)
        = some ⟨some subj, some (now + m.jwt_expiration_hours * 3600)⟩
    ∧ now < now + m.jwt_expiration_hours * 3600
    ∧ (claims.exp = some e → e < now →
        verify_token m now (JwtToken.signed claims k alg) = none)
    ∧ (k ≠ m.jwt_secret_key → verify_token m now (JwtToken.signed claims k alg) = none)
    ∧ verify_token m now JwtToken.malformed = none := by
  refine ⟨?_, ?_, by omega, ?_, ?_, rfl⟩
  · unfold authenticate_user
    by_cases hu : u = m.admin_username
    · simp [hu]
    · simp [hu]
  · have hne2 : ¬now + m.jwt_expiration_hours * 3600 ≤ now := by omega
    simp [create_access_token, jwtEncode, verify_token, jwtDecode, hne2, hsub]
  · intro hexp hlt
    have h1 : e ≤ now := by omega
    simp [verify_token, jwtDecode, hexp, h1]
  · intro hk
    simp [verify_token, jwtDecode, hk]

/-- C7 witness: the round trip at a concrete configuration. -/
theorem auth_token_roundtrip_witness :
    verify_token ⟨"secret", "HS256", 24, "admin", "hash"⟩ 0
        (create_access_token ⟨"secret", "HS256", 24, "admin", "hash"⟩ 0
          ⟨some "admin", none⟩)
      = some ⟨some "admin", some (0 + 24 * 3600)⟩
    ∧ verify_token ⟨"secret", "HS256", 24, "admin", "hash"⟩ 0 JwtToken.malformed
      = none := by
  have h := auth_token_roundtrip (fun _ _ => true)
    ⟨"secret", "HS256", 24, "admin", "hash"⟩ "admin" "pw" 0 ⟨some "admin", none⟩
    "admin" ⟨none, none⟩ "otherkey" "HS256" 0 rfl (by decide)
  exact ⟨h.2.1, h.2.2.2.2.2⟩

/-- C8 counterexample: in remote mode with a client present, an
exception raised by the chat call propagates out of `plan` instead of
falling back to the offline plan. -/
theorem adb_plan_remote_raise_propagates :
    adbPlan (fun _ => none) (Except.error ()) true "goal" [] "remote" = Except.error ()
    ∧ adbPlan (fun _ => none) (Except.error ()) true "goal" [] "remote"
        ≠ Except.ok (offline_plan "goal" []) := by
  refine ⟨rfl, ?_⟩
  intro h
  exact Except.noConfusion (rfl.trans h : (Except.error () : Except Unit Plan) = _)

/-- C8 (amended): when the remote path is selected and the chat call
raises, `plan` propagates the exception; the fallback to the offline
plan happens exactly when the remote planner returns without a plan. -/
theorem adb_plan_fallback_rules (jsonParse : String → Option (String × List String))
    (call : Except Unit String) (hasClient : Bool) (goal : String)
    (memories : List MemoryEntry) (mode : String) :
    (call = Except.error () → (mode = "remote" ∨ (mode = "auto" ∧ hasClient = true)) →
      hasClient = true →
      adbPlan jsonParse call hasClient goal memories mode = Except.error ())
    ∧ (remote_plan jsonParse call hasClient = Except.ok none →
      adbPlan jsonParse call hasClient goal memories mode
        = Except.ok (offline_plan goal memories)) := by
  constructor
  · intro hc hu hcl
    unfold adbPlan
    rw [if_pos ⟨hu, hcl⟩]
    unfold remote_plan
    rw [hcl, hc]
    rfl
  · intro hr
    unfold adbPlan
    by_cases hcond : (mode = "remote" ∨ (mode = "auto" ∧ hasClient = true))
        ∧ hasClient = true
    · rw [if_pos hcond, hr]
    · rw [if_neg hcond]

/-- C8 witness: an empty remote answer falls back to the offline plan. -/
theorem adb_plan_fallback_rules_witness :
    adbPlan (fun _ => none) (Except.ok "") true "g" [] "remote"
      = Except.ok (offline_plan "g" []) :=
  (adb_plan_fallback_rules (fun _ => none) (Except.ok "") true "g" [] "remote").2 rfl

end Folunar
